import Mathlib

/-!
Verification of the 1-D minimization core of `src/utils.js`
(`bracketMinimum`, `goldenSectionMinimize`, `_minimizeSearch`).

JavaScript numbers are modelled by `JSNum`: an exact rational together with
the three special values `NaN`, `+Infinity`, `-Infinity`.  Arithmetic on the
rational part is exact (the usual idealization of floating point by real
arithmetic); the special values follow IEEE-754 / JavaScript semantics
(`NaN` is absorbing, comparisons with `NaN` are false, `NaN === NaN` is
false, `Infinity - Infinity = NaN`, `Infinity * 0 = NaN`, ...).  The one
irrational constant of the source, `PHI_RATIO = 2 / (1 + Math.sqrt(5))`, is
modelled by the exact value of that IEEE-754 double,
5566755282872655 / 2^53.

The two source loops are modelled with explicit fuel.  The golden-section
loop `while (++iteration < maxIterations && ...)` performs at most
`maxIterations` guard evaluations, so calling its fuel version with
`fuel = maxIterations` reproduces the JavaScript behaviour exactly.  The
bracketing loop of `bracketMinimum` has no iteration cap in the source and
need not terminate; its fuel version returns `none` when the loop is still
running after `fuel` guard evaluations.
-/

/- Parts of the rational arithmetic of the standard library are marked
irreducible, which blocks `decide` on concrete runs of the model; restore
the default reducibility so that concrete executions reduce. -/
attribute [local semireducible] Rat.add Rat.mul Rat.sub Rat.inv Rat.ofScientific

set_option maxRecDepth 100000

inductive JSNum where
  | nan
  | posInf
  | negInf
  | num (q : ℚ)
deriving DecidableEq

namespace JSNum

/-- JavaScript unary minus. -/
def jneg : JSNum → JSNum
  | nan => nan
  | posInf => negInf
  | negInf => posInf
  | num q => num (-q)

/-- JavaScript addition. -/
def jadd : JSNum → JSNum → JSNum
  | nan, _ => nan
  | _, nan => nan
  | posInf, negInf => nan
  | posInf, _ => posInf
  | negInf, posInf => nan
  | negInf, _ => negInf
  | num _, posInf => posInf
  | num _, negInf => negInf
  | num a, num b => num (a + b)

/-- JavaScript subtraction (`x - y` behaves as `x + (-y)` on these values). -/
def jsub (x y : JSNum) : JSNum := jadd x (jneg y)

/-- Sign used for multiplication of infinities: 0 for zero, ±1 otherwise. -/
def jsign : JSNum → Int
  | nan => 0
  | posInf => 1
  | negInf => -1
  | num q => if q = 0 then 0 else if q > 0 then 1 else -1

/-- JavaScript multiplication (`Infinity * 0 = NaN`). -/
def jmul : JSNum → JSNum → JSNum
  | nan, _ => nan
  | _, nan => nan
  | num a, num b => num (a * b)
  | x, y =>
    if jsign x * jsign y = 1 then posInf
    else if jsign x * jsign y = -1 then negInf
    else nan

/-- JavaScript `<` (false whenever `NaN` is involved). -/
def jlt : JSNum → JSNum → Bool
  | nan, _ => false
  | _, nan => false
  | negInf, negInf => false
  | negInf, _ => true
  | posInf, _ => false
  | num _, posInf => true
  | num _, negInf => false
  | num a, num b => decide (a < b)

/-- JavaScript `<=` (false whenever `NaN` is involved). -/
def jle (x y : JSNum) : Bool := (decide (x = y) && !(decide (x = nan))) || jlt x y

/-- JavaScript `>`. -/
def jgt (x y : JSNum) : Bool := jlt y x

/-- JavaScript `===` on numbers: `NaN === NaN` is false. -/
def jeq (x y : JSNum) : Bool := !(decide (x = nan)) && !(decide (y = nan)) && decide (x = y)

/-- `Math.min` (returns `NaN` if either argument is `NaN`). -/
def jmin (x y : JSNum) : JSNum :=
  if x = nan ∨ y = nan then nan else if jle x y then x else y

/-- `Math.abs`. -/
def jabs : JSNum → JSNum
  | nan => nan
  | posInf => posInf
  | negInf => posInf
  | num q => num |q|

/-- JavaScript global `isFinite`. -/
def jIsFinite : JSNum → Bool
  | num _ => true
  | _ => false

/-- JavaScript global `isNaN`. -/
def jIsNaN : JSNum → Bool
  | nan => true
  | _ => false

@[simp] theorem jadd_num (a b : ℚ) : jadd (num a) (num b) = num (a + b) := rfl
@[simp] theorem jneg_num (a : ℚ) : jneg (num a) = num (-a) := rfl
@[simp] theorem jsub_num (a b : ℚ) : jsub (num a) (num b) = num (a - b) := by
  simp [jsub, jadd, jneg, sub_eq_add_neg]
@[simp] theorem jmul_num (a b : ℚ) : jmul (num a) (num b) = num (a * b) := rfl
@[simp] theorem jlt_num (a b : ℚ) : jlt (num a) (num b) = decide (a < b) := rfl
@[simp] theorem jgt_num (a b : ℚ) : jgt (num a) (num b) = decide (b < a) := rfl
@[simp] theorem jabs_num (a : ℚ) : jabs (num a) = num |a| := rfl
@[simp] theorem jIsNaN_num (a : ℚ) : jIsNaN (num a) = false := rfl
@[simp] theorem jIsFinite_num (a : ℚ) : jIsFinite (num a) = true := rfl

theorem jle_num (a b : ℚ) : jle (num a) (num b) = decide (a ≤ b) := by
  by_cases h : a = b
  · subst h; simp [jle, jlt]
  · have : ¬ (num a = num b) := by simp [h]
    simp [jle, jlt, this, h]
    constructor
    · intro hlt; exact le_of_lt hlt
    · intro hle; exact lt_of_le_of_ne hle h

theorem jeq_num (a b : ℚ) : jeq (num a) (num b) = decide (a = b) := by
  simp [jeq]

theorem jmin_num (a b : ℚ) : jmin (num a) (num b) = num (min a b) := by
  simp [jmin, jle_num]
  by_cases h : a ≤ b
  · simp [h, min_eq_left h]
  · simp [h, min_eq_right (le_of_not_le h)]

end JSNum

open JSNum

/-- The source constant `PHI_RATIO = 2 / (1 + Math.sqrt(5))`, modelled by the
exact rational value of that IEEE-754 double: 5566755282872655 / 2^53. -/
def PHI_RATIO : JSNum := JSNum.num (5566755282872655 / 9007199254740992)

/-- The rational value of `PHI_RATIO`. -/
def phiQ : ℚ := 5566755282872655 / 9007199254740992

theorem PHI_RATIO_eq : PHI_RATIO = JSNum.num phiQ := rfl

/-- Mutable locals of the `while` loop of `bracketMinimum`
(`xU`, `fU`, `fL`, `fMin`, `bounded`). -/
structure BrSt where
  xU : JSNum
  fU : JSNum
  fL : JSNum
  fMin : JSNum
  bounded : Bool
deriving DecidableEq

/-- Guard of the bracketing loop:
`!bounded && isFinite(dx) && !isNaN(dx)`. -/
def brGuard (dx : JSNum) (s : BrSt) : Bool :=
  !s.bounded && jIsFinite dx && !(jIsNaN dx)

/-- One body execution of the bracketing loop of `bracketMinimum`:
```
bounded = true;
if (fU <= fMin) { fMin = fU; xU += dx; fU = f(xU); bounded = false; }
fMin = Math.min(fMin, fU);
if (fL === fMin) { bounded = true; }
``` -/
def bracketStep (f : JSNum → JSNum) (dx : JSNum) (s : BrSt) : BrSt :=
  let s1 : BrSt :=
    if jle s.fU s.fMin then
      let xU := jadd s.xU dx
      ⟨xU, f xU, s.fL, s.fU, false⟩
    else
      ⟨s.xU, s.fU, s.fL, s.fMin, true⟩
  let fMin := jmin s1.fMin s1.fU
  let bounded := if jeq s1.fL fMin then true else s1.bounded
  ⟨s1.xU, s1.fU, s1.fL, fMin, bounded⟩

/-- The bracketing loop of `bracketMinimum`, with fuel.  The source loop has
no iteration cap and need not terminate; `none` means the loop was still
running after `fuel` guard evaluations. -/
def bracketLoop (f : JSNum → JSNum) (dx : JSNum) : ℕ → BrSt → Option BrSt
  | 0, s => if brGuard dx s then none else some s
  | fuel + 1, s =>
      if brGuard dx s then bracketLoop f dx fuel (bracketStep f dx s)
      else some s

/-- `bracketMinimum(f, x0, dx)` from `src/utils.js` (fuel bounds only the
potentially non-terminating loop; the tail computation
`xL = xU - 2*dx; if (x0 === xL + dx) xL = x0; return [xL, xU]` is exact). -/
def bracketMinimum (f : JSNum → JSNum) (x0 dx : JSNum) (fuel : ℕ) :
    Option (JSNum × JSNum) :=
  let fx0 := f x0
  match bracketLoop f dx fuel ⟨x0, fx0, fx0, fx0, false⟩ with
  | none => none
  | some s =>
      let xL := jsub s.xU (jmul (JSNum.num 2) dx)
      let xL := if jeq x0 (jadd xL dx) then x0 else xL
      some (xL, s.xU)

/-- Mutable locals of the golden-section loop
(`xL`, `xU`, `x1`, `x2`, `f1`, `f2`). -/
structure GssSt where
  xL : JSNum
  xU : JSNum
  x1 : JSNum
  x2 : JSNum
  f1 : JSNum
  f2 : JSNum
deriving DecidableEq

/-- Initial probe state of `goldenSectionMinimize`:
`x1 = xU - PHI_RATIO*(xU-xL)`, `x2 = xL + PHI_RATIO*(xU-xL)`,
`f1 = f(x1)`, `f2 = f(x2)`. -/
def gssInit (f : JSNum → JSNum) (xL xU : JSNum) : GssSt :=
  let x1 := jsub xU (jmul PHI_RATIO (jsub xU xL))
  let x2 := jadd xL (jmul PHI_RATIO (jsub xU xL))
  ⟨xL, xU, x1, x2, f x1, f x2⟩

/-- One body execution of the golden-section loop:
```
if (f2 > f1) { xU = x2; x2 = x1; f2 = f1;
               x1 = xU - PHI_RATIO*(xU-xL); f1 = f(x1); }
else         { xL = x1; x1 = x2; f1 = f2;
               x2 = xL + PHI_RATIO*(xU-xL); f2 = f(x2); }
``` -/
def gssStep (f : JSNum → JSNum) (s : GssSt) : GssSt :=
  if jgt s.f2 s.f1 then
    let xU := s.x2
    let x1 := jsub xU (jmul PHI_RATIO (jsub xU s.xL))
    ⟨s.xL, xU, x1, s.x1, f x1, s.f1⟩
  else
    let xL := s.x1
    let x2 := jadd xL (jmul PHI_RATIO (jsub s.xU xL))
    ⟨xL, s.xU, s.x2, x2, s.f2, f x2⟩

/-- The loop `while (++iteration < maxIterations && Math.abs(xU-xL) > tol)`,
with fuel; returns the final value of `iteration` and the final state.  Each
guard evaluation increments `iteration` first.  Continuing requires
`iteration + 1 < maxIter`, so a call with `fuel = maxIter` and
`iteration = 0` maintains `fuel = maxIter - iteration` and reproduces the
source loop exactly for every `maxIter` (the fuel-out branch is reached only
with `maxIter = 0`, where it returns the same `(1, s)` the guard would). -/
def gssLoop (f : JSNum → JSNum) (tol : JSNum) (maxIter : ℕ) :
    ℕ → ℕ → GssSt → ℕ × GssSt
  | 0, it, s => (it + 1, s)
  | fuel + 1, it, s =>
      if decide (it + 1 < maxIter) && jgt (jabs (jsub s.xU s.xL)) tol then
        gssLoop f tol maxIter fuel (it + 1) (gssStep f s)
      else (it + 1, s)

/-- The caller-visible status record (`iterations`, `argmin`, `minimum`,
`converged`).  The source mutates an optional record in place; the model
returns the record that a supplied status object would hold on return. -/
structure MinStatus where
  iterations : ℕ
  argmin : JSNum
  minimum : JSNum
  converged : Bool
deriving DecidableEq

/-- `goldenSectionMinimize(f, xL, xU, tol, maxIterations, status)` from
`src/utils.js`, returning the result together with the status record. -/
def goldenSectionMinimize (f : JSNum → JSNum) (xL xU tol : JSNum)
    (maxIterations : ℕ) : JSNum × MinStatus :=
  let f10 := f xL
  let f20 := f xU
  let xL0 := xL
  let xU0 := xU
  let r := gssLoop f tol maxIterations maxIterations 0 (gssInit f xL xU)
  let iteration := r.1
  let s := r.2
  let xF := jmul (JSNum.num (1/2)) (jadd s.xU s.xL)
  let fF := jmul (JSNum.num (1/2)) (jadd s.f1 s.f2)
  if jIsNaN s.f2 || jIsNaN s.f1 || decide (iteration = maxIterations) then
    (JSNum.nan, ⟨iteration, xF, fF, false⟩)
  else if jlt f10 fF then (xL0, ⟨iteration, xF, fF, true⟩)
  else if jlt f20 fF then (xU0, ⟨iteration, xF, fF, true⟩)
  else (xF, ⟨iteration, xF, fF, true⟩)

/-- The recognized options of `_minimizeSearch`; `none` models an absent
(`undefined`) option.  `maxIterations` is modelled as a natural number (the
callers and defaults of the source use non-negative integers). -/
structure MinimizeOptions where
  tolerance : Option JSNum := none
  initialIncrement : Option JSNum := none
  lowerBound : Option JSNum := none
  upperBound : Option JSNum := none
  maxIterations : Option ℕ := none

/-- `_minimizeSearch(f, options, status)` from `src/utils.js`.  `fuel` bounds
only the potentially non-terminating bracketing loop (`none` = that loop was
still running); everything else is exact. -/
def _minimizeSearch (f : JSNum → JSNum) (options : MinimizeOptions)
    (fuel : ℕ) : Option (JSNum × MinStatus) :=
  let tolerance := options.tolerance.getD (JSNum.num (1 / 10 ^ 8))
  let dx := options.initialIncrement.getD (JSNum.num 1)
  let xMin := options.lowerBound.getD JSNum.negInf
  let xMax := options.upperBound.getD JSNum.posInf
  let maxIterations := options.maxIterations.getD 100
  if jIsFinite xMax && jIsFinite xMin then
    some (goldenSectionMinimize f xMin xMax tolerance maxIterations)
  else
    let x0 := if jgt xMin JSNum.negInf then xMin else JSNum.num 0
    match bracketMinimum f x0 dx fuel with
    | none => none
    | some bounds =>
        some (goldenSectionMinimize f bounds.1 bounds.2 tolerance maxIterations)

/-! ### Basic facts about the JavaScript number model -/

theorem jadd_zero (x : JSNum) : jadd x (JSNum.num 0) = x := by
  cases x <;> simp [jadd]

theorem jsub_zero (x : JSNum) : jsub x (JSNum.num 0) = x := by
  cases x <;> simp [jsub, jadd, jneg]

theorem jadd_nan (x : JSNum) : jadd x JSNum.nan = JSNum.nan := by
  cases x <;> rfl

theorem jmul_nan (x : JSNum) : jmul x JSNum.nan = JSNum.nan := by
  cases x <;> rfl

theorem jmin_self (x : JSNum) : jmin x x = x := by
  cases x <;> simp [jmin, jle, jlt]

theorem jle_self_of_ne_nan (x : JSNum) (h : x ≠ JSNum.nan) : jle x x = true := by
  cases x <;> simp_all [jle, jlt]

theorem jeq_self_of_ne_nan (x : JSNum) (h : x ≠ JSNum.nan) : jeq x x = true := by
  cases x <;> simp_all [jeq]

/-! ### Generic facts about the bracketing loop -/

/-- Once `bounded` is set, the loop exits at once with the current state. -/
theorem bracketLoop_bounded (f : JSNum → JSNum) (dx : JSNum) (fuel : ℕ)
    (s : BrSt) (h : s.bounded = true) : bracketLoop f dx fuel s = some s := by
  cases fuel <;> simp [bracketLoop, brGuard, h]

/-- When `dx` is not finite the guard is false and the loop exits at once. -/
theorem bracketLoop_of_not_finite (f : JSNum → JSNum) (dx : JSNum) (fuel : ℕ)
    (s : BrSt) (h : jIsFinite dx = false) : bracketLoop f dx fuel s = some s := by
  cases fuel <;> simp [bracketLoop, brGuard, h]

/-- A body execution either leaves `xU` unchanged or advances it by `dx`. -/
theorem bracketStep_xU (f : JSNum → JSNum) (dx : JSNum) (s : BrSt) :
    (bracketStep f dx s).xU = s.xU ∨ (bracketStep f dx s).xU = jadd s.xU dx := by
  by_cases h : jle s.fU s.fMin <;> simp [bracketStep, h]

/-- For a positive rational step the loop only moves `xU` upward: if the loop
terminates, the final `xU` is a rational at or above any lower bound of the
initial `xU`. -/
theorem bracketLoop_xU_ge (f : JSNum → JSNum) (d : ℚ) (hd : 0 < d) (x0q : ℚ) :
    ∀ (fuel : ℕ) (s s' : BrSt), bracketLoop f (JSNum.num d) fuel s = some s' →
      (∃ u, s.xU = JSNum.num u ∧ x0q ≤ u) →
      ∃ u', s'.xU = JSNum.num u' ∧ x0q ≤ u' := by
  intro fuel
  induction fuel with
  | zero =>
      intro s s' h hs
      by_cases hg : brGuard (JSNum.num d) s = true
      · simp [bracketLoop, hg] at h
      · simp [bracketLoop, hg] at h
        exact h ▸ hs
  | succ n ih =>
      intro s s' h hs
      by_cases hg : brGuard (JSNum.num d) s = true
      · simp [bracketLoop, hg] at h
        apply ih _ _ h
        obtain ⟨u, hu, hle⟩ := hs
        rcases bracketStep_xU f (JSNum.num d) s with h1 | h1
        · exact ⟨u, h1 ▸ hu, hle⟩
        · refine ⟨u + d, ?_, le_trans hle (by linarith)⟩
          rw [h1, hu]
          simp
      · simp [bracketLoop, hg] at h
        exact h ▸ hs

/-! ### Claim C2 -/

/-- C2 counterexample: with `f` constant `0`, `x0 = 0` and the finite,
non-zero step `dx = -1`, the bracketing loop terminates (within 5 guard
evaluations) and `bracketMinimum` returns the pair `(0, -1)`, whose first
component is strictly greater than its second: the returned interval is not
ordered, refuting the claim for negative steps. -/
theorem C2_counterexample :
    bracketMinimum (fun _ => JSNum.num 0) (JSNum.num 0) (JSNum.num (-1)) 5
      = some (JSNum.num 0, JSNum.num (-1)) ∧ ¬ ((0 : ℚ) ≤ -1) := by
  constructor
  · decide
  · norm_num

/-- C2 (amended): for every objective function, every rational starting
point and every *positive* rational step `dx` for which the bracketing loop
terminates, `bracketMinimum` returns an ordered pair of finite (rational)
endpoints `xL ≤ xU`. -/
theorem C2_bracket_ordered_finite (f : JSNum → JSNum) (x0q d : ℚ)
    (hd : 0 < d) (fuel : ℕ) (xL xU : JSNum)
    (h : bracketMinimum f (JSNum.num x0q) (JSNum.num d) fuel = some (xL, xU)) :
    ∃ l u : ℚ, xL = JSNum.num l ∧ xU = JSNum.num u ∧ l ≤ u := by
  rcases hb : bracketLoop f (JSNum.num d) fuel
      ⟨JSNum.num x0q, f (JSNum.num x0q), f (JSNum.num x0q),
       f (JSNum.num x0q), false⟩ with _ | s
  · simp only [bracketMinimum, hb] at h
    exact Option.noConfusion h
  · simp only [bracketMinimum, hb, Option.some.injEq, Prod.mk.injEq] at h
    obtain ⟨u, hu, hle⟩ := bracketLoop_xU_ge f d hd x0q fuel _ s hb ⟨x0q, rfl, le_refl _⟩
    rw [hu] at h
    obtain ⟨hL, hU⟩ := h
    by_cases hc : jeq (JSNum.num x0q) (jadd (jsub (JSNum.num u) (jmul (JSNum.num 2) (JSNum.num d))) (JSNum.num d)) = true
    · rw [if_pos hc] at hL
      exact ⟨x0q, u, hL.symm, hU.symm, hle⟩
    · rw [if_neg hc] at hL
      refine ⟨u - 2 * d, u, ?_, hU.symm, by linarith⟩
      rw [← hL]; simp

/-- C2 witness: the amended theorem applied at a concrete run
(`f` constant `0`, `x0 = 0`, `dx = 1`): the returned pair is ordered. -/
theorem C2_witness :
    ∃ l u : ℚ, JSNum.num (0:ℚ) = JSNum.num l ∧ JSNum.num (1:ℚ) = JSNum.num u ∧ l ≤ u := by
  have h : bracketMinimum (fun _ => JSNum.num 0) (JSNum.num 0) (JSNum.num 1) 5
      = some (JSNum.num 0, JSNum.num 1) := by decide
  exact C2_bracket_ordered_finite (fun _ => JSNum.num 0) 0 1 (by norm_num) 5 _ _ h

/-! ### Claim C4 -/

/-- C4 counterexample: `bracket` called with `dx = NaN` (and `f` constant
`0`, `x0 = 0`): the loop is indeed skipped, but the returned interval is
`(NaN, 0)`, not the trivial bracket collapsed to `x0` — its lower endpoint
is `NaN`, which is neither finite nor equal to `x0`. -/
theorem C4_counterexample :
    bracketMinimum (fun _ => JSNum.num 0) (JSNum.num 0) JSNum.nan 5
        = some (JSNum.nan, JSNum.num 0) ∧
      JSNum.nan ≠ JSNum.num 0 ∧ jIsFinite JSNum.nan = false := by
  refine ⟨by decide, by decide, rfl⟩

/-- C4 (amended): degenerate steps never raise an error, but only `dx = 0`
yields the collapsed bracket `(x0, x0)` (after one loop pass that does not
move `xU`).  For `dx = NaN` the loop does not execute and the result is
`(NaN, x0)`; for `dx = ±Infinity` the loop does not execute and the result
is `(∓Infinity, x0)`. -/
theorem C4_degenerate_dx :
    (∀ (f : JSNum → JSNum) (x0 : JSNum) (fuel : ℕ),
        bracketMinimum f x0 (JSNum.num 0) (fuel + 1) = some (x0, x0)) ∧
    (∀ (f : JSNum → JSNum) (x0 : JSNum) (fuel : ℕ),
        bracketMinimum f x0 JSNum.nan fuel = some (JSNum.nan, x0)) ∧
    (∀ (f : JSNum → JSNum) (a : ℚ) (fuel : ℕ),
        bracketMinimum f (JSNum.num a) JSNum.posInf fuel
          = some (JSNum.negInf, JSNum.num a)) ∧
    (∀ (f : JSNum → JSNum) (a : ℚ) (fuel : ℕ),
        bracketMinimum f (JSNum.num a) JSNum.negInf fuel
          = some (JSNum.posInf, JSNum.num a)) := by
  refine ⟨?_, ?_, ?_, ?_⟩
  · intro f x0 fuel
    have hstep : bracketStep f (JSNum.num 0) ⟨x0, f x0, f x0, f x0, false⟩
        = ⟨x0, f x0, f x0, f x0, true⟩ := by
      by_cases hn : f x0 = JSNum.nan
      · rw [hn]; rfl
      · have h1 : jle (f x0) (f x0) = true := jle_self_of_ne_nan _ hn
        have h2 : jeq (f x0) (f x0) = true := jeq_self_of_ne_nan _ hn
        simp only [bracketStep, h1, if_true, jadd_zero, jmin_self, h2]
    have hloop : bracketLoop f (JSNum.num 0) (fuel + 1)
        ⟨x0, f x0, f x0, f x0, false⟩ = some ⟨x0, f x0, f x0, f x0, true⟩ := by
      have hg : brGuard (JSNum.num 0) ⟨x0, f x0, f x0, f x0, false⟩ = true := rfl
      rw [bracketLoop, if_pos hg, hstep]
      exact bracketLoop_bounded _ _ _ _ rfl
    have h2 : jmul (JSNum.num 2) (JSNum.num 0) = JSNum.num 0 := by
      simp
    simp only [bracketMinimum, hloop, h2, jsub_zero, jadd_zero, ite_self]
  · intro f x0 fuel
    have hloop := bracketLoop_of_not_finite f JSNum.nan fuel
      ⟨x0, f x0, f x0, f x0, false⟩ rfl
    have h2 : jmul (JSNum.num 2) JSNum.nan = JSNum.nan := jmul_nan _
    have h3 : jsub x0 JSNum.nan = JSNum.nan := jadd_nan x0
    simp only [bracketMinimum, hloop, h2, h3, jadd_nan]
    simp [jeq]
  · intro f a fuel
    have hloop := bracketLoop_of_not_finite f JSNum.posInf fuel
      ⟨JSNum.num a, f (JSNum.num a), f (JSNum.num a), f (JSNum.num a), false⟩ rfl
    have h2 : jmul (JSNum.num 2) JSNum.posInf = JSNum.posInf := by decide
    have h3 : jsub (JSNum.num a) JSNum.posInf = JSNum.negInf := rfl
    have h4 : jadd JSNum.negInf JSNum.posInf = JSNum.nan := rfl
    simp only [bracketMinimum, hloop, h2, h3, h4]
    simp [jeq]
  · intro f a fuel
    have hloop := bracketLoop_of_not_finite f JSNum.negInf fuel
      ⟨JSNum.num a, f (JSNum.num a), f (JSNum.num a), f (JSNum.num a), false⟩ rfl
    have h2 : jmul (JSNum.num 2) JSNum.negInf = JSNum.negInf := by decide
    have h3 : jsub (JSNum.num a) JSNum.negInf = JSNum.posInf := rfl
    have h4 : jadd JSNum.posInf JSNum.negInf = JSNum.nan := rfl
    simp only [bracketMinimum, hloop, h2, h3, h4]
    simp [jeq]

/-! ### Claim C6 -/

/-- C6 counterexample: with `f` constant `0`, `x0 = 0`, `dx = 1` the loop
completes with `xU = 1`, so the computed lower edge is `xU - 2*dx = -1`.
The claim's snap condition — the computed `xL` coincides with `x0 + dx`,
i.e. `-1 === 1` — is false, so the claim predicts the returned pair
`(-1, 1)`; the code instead tests `x0 === xL + dx` (`0 === 0`, true), snaps,
and returns `(0, 1)`. -/
theorem C6_counterexample :
    bracketMinimum (fun _ => JSNum.num 0) (JSNum.num 0) (JSNum.num 1) 5
        = some (JSNum.num 0, JSNum.num 1) ∧
      jeq (jsub (JSNum.num 1) (jmul (JSNum.num 2) (JSNum.num 1)))
          (jadd (JSNum.num 0) (JSNum.num 1)) = false := by
  exact ⟨by decide, by decide⟩

/-- C6 (amended): when the bracketing loop completes with final state `s`,
`bracketMinimum` computes `xL = xU - 2*dx` and snaps `xL` to `x0` exactly
when `x0 === xL + dx` (equivalently, the computed `xL` coincides with
`x0 - dx` in exact arithmetic), then returns `(xL, xU)`. -/
theorem C6_bracket_tail (f : JSNum → JSNum) (x0 dx : JSNum) (fuel : ℕ)
    (s : BrSt)
    (h : bracketLoop f dx fuel ⟨x0, f x0, f x0, f x0, false⟩ = some s) :
    bracketMinimum f x0 dx fuel =
      some (if jeq x0 (jadd (jsub s.xU (jmul (JSNum.num 2) dx)) dx) = true
              then x0 else jsub s.xU (jmul (JSNum.num 2) dx),
            s.xU) := by
  simp only [bracketMinimum, h]

/-- C6 witness: the amended theorem applied to the run of the
counterexample (`f` constant `0`, `x0 = 0`, `dx = 1`), where the snap
condition holds and the returned pair is `(x0, xU) = (0, 1)`. -/
theorem C6_witness :
    bracketMinimum (fun _ => JSNum.num 0) (JSNum.num 0) (JSNum.num 1) 5 =
      some (if jeq (JSNum.num 0)
                (jadd (jsub (JSNum.num 1) (jmul (JSNum.num 2) (JSNum.num 1)))
                  (JSNum.num 1)) = true
              then JSNum.num 0
              else jsub (JSNum.num 1) (jmul (JSNum.num 2) (JSNum.num 1)),
            JSNum.num 1) := by
  have h : bracketLoop (fun _ => JSNum.num 0) (JSNum.num 1) 5
      ⟨JSNum.num 0, JSNum.num 0, JSNum.num 0, JSNum.num 0, false⟩
      = some ⟨JSNum.num 1, JSNum.num 0, JSNum.num 0, JSNum.num 0, true⟩ := by
    decide
  exact C6_bracket_tail (fun _ => JSNum.num 0) (JSNum.num 0) (JSNum.num 1) 5 _ h

/-! ### Claim C8 -/

/-- On the objective `f(x) = -x` with `x0 = 0`, `dx = 1`, the state after
`k` advances: the candidate value keeps matching the running minimum, so
the loop never sets `bounded` and runs forever. -/
theorem bracketLoop_jneg_none : ∀ (fuel k : ℕ),
    bracketLoop (fun x => jneg x) (JSNum.num 1) fuel
      ⟨JSNum.num (k : ℚ), JSNum.num (-(k : ℚ)), JSNum.num 0,
       JSNum.num (-(k : ℚ)), false⟩ = none := by
  have hstep : ∀ k : ℕ,
      bracketStep (fun x => jneg x) (JSNum.num 1)
        ⟨JSNum.num (k : ℚ), JSNum.num (-(k : ℚ)), JSNum.num 0,
         JSNum.num (-(k : ℚ)), false⟩
      = ⟨JSNum.num ((k : ℚ) + 1), JSNum.num (-((k : ℚ) + 1)), JSNum.num 0,
         JSNum.num (-((k : ℚ) + 1)), false⟩ := by
    intro k
    have h1 : jle (JSNum.num (-(k : ℚ))) (JSNum.num (-(k : ℚ))) = true := by
      rw [jle_num]; simp
    have h2 : jmin (JSNum.num (-(k : ℚ))) (JSNum.num (-((k : ℚ) + 1)))
        = JSNum.num (-((k : ℚ) + 1)) := by
      rw [jmin_num]
      have : min (-(k : ℚ)) (-((k : ℚ) + 1)) = -((k : ℚ) + 1) := by
        apply min_eq_right; linarith [Nat.cast_nonneg (α := ℚ) k]
      rw [this]
    have h3 : jeq (JSNum.num 0) (JSNum.num (-((k : ℚ) + 1))) = false := by
      rw [jeq_num]
      simp only [decide_eq_false_iff_not]
      have hk : (0 : ℚ) ≤ (k : ℚ) := Nat.cast_nonneg k
      intro hcon; linarith
    simp only [bracketStep, h1, if_true, jadd_num, jneg_num, h2, h3]
    norm_num
  intro fuel
  induction fuel with
  | zero => intro k; rfl
  | succ n ih =>
      intro k
      have hg : brGuard (JSNum.num 1)
          ⟨JSNum.num (k : ℚ), JSNum.num (-(k : ℚ)), JSNum.num 0,
           JSNum.num (-(k : ℚ)), false⟩ = true := rfl
      rw [bracketLoop, if_pos hg, hstep k]
      have hcast : ((k : ℚ) + 1) = ((k + 1 : ℕ) : ℚ) := by push_cast; ring
      rw [hcast]
      exact ih (k + 1)

/-- C8 counterexample: on `f(x) = -x` (strictly decreasing), `x0 = 0`,
`dx = 1` — a finite starting point and a finite non-zero step — the
bracketing loop never terminates: no amount of fuel makes `bracketMinimum`
return.  (`dx` is never modified inside the loop of this fork, so the
"`dx` becomes non-finite" exit can never fire after entry.) -/
theorem C8_counterexample :
    ¬ ∃ (fuel : ℕ) (p : JSNum × JSNum),
        bracketMinimum (fun x => jneg x) (JSNum.num 0) (JSNum.num 1) fuel
          = some p := by
  rintro ⟨fuel, p, h⟩
  have h0 := bracketLoop_jneg_none fuel 0
  have hz : ((0 : ℕ) : ℚ) = 0 := by norm_num
  rw [hz, neg_zero] at h0
  simp only [bracketMinimum, jneg_num, neg_zero, h0] at h
  exact Option.noConfusion h

/-- C8 (amended): the bracketing loop exits at once when `dx` is non-finite
at entry, but for a finite `dx` it need not terminate at all: `dx` is never
modified inside the loop of this fork, and on the strictly decreasing
objective `f(x) = -x` (with `x0 = 0`, `dx = 1`) the loop runs forever. -/
theorem C8_termination :
    (∀ (f : JSNum → JSNum) (dx : JSNum) (fuel : ℕ) (s : BrSt),
        jIsFinite dx = false → bracketLoop f dx fuel s = some s) ∧
    (∀ fuel : ℕ,
        bracketLoop (fun x => jneg x) (JSNum.num 1) fuel
          ⟨JSNum.num 0, JSNum.num 0, JSNum.num 0, JSNum.num 0, false⟩
          = none) := by
  constructor
  · intro f dx fuel s h
    exact bracketLoop_of_not_finite f dx fuel s h
  · intro fuel
    have h0 := bracketLoop_jneg_none fuel 0
    have hz : ((0 : ℕ) : ℚ) = 0 := by norm_num
    rw [hz, neg_zero] at h0
    exact h0

/-- C8 witness: the first part of the amended theorem applied at `dx = NaN`
(a non-finite step): the loop exits immediately with the initial state. -/
theorem C8_witness :
    bracketLoop (fun _ => JSNum.num 0) JSNum.nan 3
      ⟨JSNum.num 0, JSNum.num 0, JSNum.num 0, JSNum.num 0, false⟩
      = some ⟨JSNum.num 0, JSNum.num 0, JSNum.num 0, JSNum.num 0, false⟩ :=
  C8_termination.1 (fun _ => JSNum.num 0) JSNum.nan 3 _ rfl

/-! ### Facts about the golden-section machinery -/

theorem phiQ_pos : 0 < phiQ := by norm_num [phiQ]

theorem phiQ_lt_one : phiQ < 1 := by norm_num [phiQ]

theorem one_lt_two_phiQ : 1 < 2 * phiQ := by norm_num [phiQ]

/-- All four abscissa components of a loop state are rationals inside
`[l0, u0]`. -/
def StInRange (l0 u0 : ℚ) (s : GssSt) : Prop :=
  ∃ a b c d : ℚ, s.xL = JSNum.num a ∧ s.xU = JSNum.num b ∧
    s.x1 = JSNum.num c ∧ s.x2 = JSNum.num d ∧
    l0 ≤ a ∧ a ≤ u0 ∧ l0 ≤ b ∧ b ≤ u0 ∧ l0 ≤ c ∧ c ≤ u0 ∧ l0 ≤ d ∧ d ≤ u0

theorem combo_sub_mem (l0 u0 a b : ℚ) (ha : l0 ≤ a) (ha' : a ≤ u0)
    (hb : l0 ≤ b) (hb' : b ≤ u0) :
    l0 ≤ b - phiQ * (b - a) ∧ b - phiQ * (b - a) ≤ u0 := by
  have h0 := phiQ_pos
  have h1 := phiQ_lt_one
  constructor <;> nlinarith

theorem combo_add_mem (l0 u0 a b : ℚ) (ha : l0 ≤ a) (ha' : a ≤ u0)
    (hb : l0 ≤ b) (hb' : b ≤ u0) :
    l0 ≤ a + phiQ * (b - a) ∧ a + phiQ * (b - a) ≤ u0 := by
  have h0 := phiQ_pos
  have h1 := phiQ_lt_one
  constructor <;> nlinarith

/-- Both branches of the loop body keep every abscissa inside `[l0, u0]`:
the retained points are components of the old state and the fresh probe is a
convex combination (with coefficient `PHI_RATIO ∈ [0,1]`) of two of them. -/
theorem gssStep_range (f : JSNum → JSNum) (l0 u0 : ℚ) (s : GssSt)
    (h : StInRange l0 u0 s) : StInRange l0 u0 (gssStep f s) := by
  obtain ⟨a, b, c, d, hxL, hxU, hx1, hx2, ha, ha', hb, hb', hc, hc', hd, hd'⟩ := h
  by_cases hbr : jgt s.f2 s.f1 = true
  · obtain ⟨m1, m2⟩ := combo_sub_mem l0 u0 a d ha ha' hd hd'
    refine ⟨a, d, d - phiQ * (d - a), c, ?_, ?_, ?_, ?_,
      ha, ha', hd, hd', m1, m2, hc, hc'⟩ <;>
      simp [gssStep, hbr, hxL, hxU, hx1, hx2, PHI_RATIO_eq]
  · obtain ⟨m1, m2⟩ := combo_add_mem l0 u0 c b hc hc' hb hb'
    refine ⟨c, b, d, c + phiQ * (b - c), ?_, ?_, ?_, ?_,
      hc, hc', hb, hb', hd, hd', m1, m2⟩ <;>
      simp [gssStep, hbr, hxL, hxU, hx1, hx2, PHI_RATIO_eq]

theorem gssLoop_range (f : JSNum → JSNum) (tol : JSNum) (maxIter : ℕ)
    (l0 u0 : ℚ) : ∀ (fuel it : ℕ) (s : GssSt), StInRange l0 u0 s →
    StInRange l0 u0 (gssLoop f tol maxIter fuel it s).2 := by
  intro fuel
  induction fuel with
  | zero => intro it s h; exact h
  | succ n ih =>
      intro it s h
      rw [gssLoop]
      by_cases hg : (decide (it + 1 < maxIter) && jgt (jabs (jsub s.xU s.xL)) tol) = true
      · rw [if_pos hg]
        exact ih (it + 1) (gssStep f s) (gssStep_range f l0 u0 s h)
      · rw [if_neg hg]
        exact h

/-- The initial probe state built from rational bounds lying in `[l0, u0]`
is in range. -/
theorem gssInit_range (f : JSNum → JSNum) (l0 u0 l u : ℚ)
    (hl : l0 ≤ l) (hl' : l ≤ u0) (hu : l0 ≤ u) (hu' : u ≤ u0) :
    StInRange l0 u0 (gssInit f (JSNum.num l) (JSNum.num u)) := by
  obtain ⟨m1, m2⟩ := combo_sub_mem l0 u0 l u hl hl' hu hu'
  obtain ⟨m3, m4⟩ := combo_add_mem l0 u0 l u hl hl' hu hu'
  exact ⟨l, u, u - phiQ * (u - l), l + phiQ * (u - l),
    rfl, rfl, by simp [gssInit, PHI_RATIO_eq], by simp [gssInit, PHI_RATIO_eq],
    hl, hl', hu, hu', m1, m2, m3, m4⟩

/-- Unfolding of `goldenSectionMinimize` in terms of the loop result:
failure check first (`isNaN(f2) || isNaN(f1) || iteration === maxIterations`),
then the boundary comparisons against the midpoint value estimate, then the
midpoint. -/
theorem gss_spec (f : JSNum → JSNum) (xL xU tol : JSNum) (maxIter it : ℕ)
    (s : GssSt)
    (h : gssLoop f tol maxIter maxIter 0 (gssInit f xL xU) = (it, s)) :
    goldenSectionMinimize f xL xU tol maxIter =
      (if (jIsNaN s.f2 || jIsNaN s.f1 || decide (it = maxIter)) = true then
        (JSNum.nan, ⟨it, jmul (JSNum.num (1/2)) (jadd s.xU s.xL),
                     jmul (JSNum.num (1/2)) (jadd s.f1 s.f2), false⟩)
      else if jlt (f xL) (jmul (JSNum.num (1/2)) (jadd s.f1 s.f2)) = true then
        (xL, ⟨it, jmul (JSNum.num (1/2)) (jadd s.xU s.xL),
              jmul (JSNum.num (1/2)) (jadd s.f1 s.f2), true⟩)
      else if jlt (f xU) (jmul (JSNum.num (1/2)) (jadd s.f1 s.f2)) = true then
        (xU, ⟨it, jmul (JSNum.num (1/2)) (jadd s.xU s.xL),
              jmul (JSNum.num (1/2)) (jadd s.f1 s.f2), true⟩)
      else (jmul (JSNum.num (1/2)) (jadd s.xU s.xL),
            ⟨it, jmul (JSNum.num (1/2)) (jadd s.xU s.xL),
             jmul (JSNum.num (1/2)) (jadd s.f1 s.f2), true⟩)) := by
  simp only [goldenSectionMinimize, h]

/-! ### Claim C3 -/

/-- C3: on a call with finite bounds (the interval the Bracketer's contract
hands over), the Refiner returns the `NaN` sentinel with
`status.converged = false` exactly when one of the two final probe values is
`NaN` or the final value of the iteration counter equals `maxIterations`
(the cap was reached before the tolerance test stopped the loop); in every
other case it returns a non-`NaN` result with `status.converged = true`.
In particular, `minimize` with `maxIterations = 1` on the non-trivial
objective `f(x) = x*x` over `[1, 5]` returns the sentinel with
`converged = false`. -/
theorem C3_sentinel_iff :
    (∀ (f : JSNum → JSNum) (l u : ℚ) (tol : JSNum) (maxIter : ℕ),
      (((goldenSectionMinimize f (JSNum.num l) (JSNum.num u) tol maxIter).1
            = JSNum.nan ∧
        (goldenSectionMinimize f (JSNum.num l) (JSNum.num u) tol
            maxIter).2.converged = false) ∨
       ((goldenSectionMinimize f (JSNum.num l) (JSNum.num u) tol maxIter).1
            ≠ JSNum.nan ∧
        (goldenSectionMinimize f (JSNum.num l) (JSNum.num u) tol
            maxIter).2.converged = true)) ∧
      ((goldenSectionMinimize f (JSNum.num l) (JSNum.num u) tol maxIter).1
          = JSNum.nan ↔
        (jIsNaN (gssLoop f tol maxIter maxIter 0
            (gssInit f (JSNum.num l) (JSNum.num u))).2.f1 = true ∨
         jIsNaN (gssLoop f tol maxIter maxIter 0
            (gssInit f (JSNum.num l) (JSNum.num u))).2.f2 = true ∨
         (gssLoop f tol maxIter maxIter 0
            (gssInit f (JSNum.num l) (JSNum.num u))).1 = maxIter))) ∧
    ((_minimizeSearch (fun x => jmul x x)
        { lowerBound := some (JSNum.num 1), upperBound := some (JSNum.num 5),
          maxIterations := some 1 } 0).map
        (fun p => (p.1, p.2.converged)) = some (JSNum.nan, false)) := by
  constructor
  · intro f l u tol maxIter
    have hinit : StInRange (min l u) (max l u)
        (gssInit f (JSNum.num l) (JSNum.num u)) :=
      gssInit_range f _ _ l u (min_le_left l u) (le_max_left l u)
        (min_le_right l u) (le_max_right l u)
    have hrange := gssLoop_range f tol maxIter (min l u) (max l u)
      maxIter 0 _ hinit
    obtain ⟨a, b, c, d, hxL, hxU, _⟩ := hrange
    have heq := gss_spec f (JSNum.num l) (JSNum.num u) tol maxIter
      (gssLoop f tol maxIter maxIter 0
        (gssInit f (JSNum.num l) (JSNum.num u))).1
      (gssLoop f tol maxIter maxIter 0
        (gssInit f (JSNum.num l) (JSNum.num u))).2 rfl
    set r := gssLoop f tol maxIter maxIter 0
      (gssInit f (JSNum.num l) (JSNum.num u)) with hr
    by_cases hc : (jIsNaN r.2.f2 || jIsNaN r.2.f1 || decide (r.1 = maxIter))
        = true
    · rw [if_pos hc] at heq
      rw [heq]
      have hc' : jIsNaN r.2.f1 = true ∨ jIsNaN r.2.f2 = true ∨ r.1 = maxIter := by
        simp only [Bool.or_eq_true, decide_eq_true_eq] at hc
        tauto
      exact ⟨Or.inl ⟨rfl, rfl⟩, by simp [hc']⟩
    · rw [if_neg hc] at heq
      have hc' : ¬ (jIsNaN r.2.f1 = true ∨ jIsNaN r.2.f2 = true ∨ r.1 = maxIter) := by
        simp only [Bool.or_eq_true, decide_eq_true_eq] at hc
        tauto
      have hxF : jmul (JSNum.num (1/2)) (jadd r.2.xU r.2.xL)
          = JSNum.num ((1/2) * (b + a)) := by
        rw [hxU, hxL]; simp
      have hres : (goldenSectionMinimize f (JSNum.num l) (JSNum.num u) tol
          maxIter).1 ≠ JSNum.nan ∧
          (goldenSectionMinimize f (JSNum.num l) (JSNum.num u) tol
          maxIter).2.converged = true := by
        rw [heq]
        by_cases h1 : jlt (f (JSNum.num l))
            (jmul (JSNum.num (1/2)) (jadd r.2.f1 r.2.f2)) = true
        · rw [if_pos h1]; exact ⟨by simp, rfl⟩
        · rw [if_neg h1]
          by_cases h2 : jlt (f (JSNum.num u))
              (jmul (JSNum.num (1/2)) (jadd r.2.f1 r.2.f2)) = true
          · rw [if_pos h2]; exact ⟨by simp, rfl⟩
          · rw [if_neg h2]
            refine ⟨?_, rfl⟩
            rw [hxF]
            simp
      exact ⟨Or.inr hres, by simp [hres.1, hc']⟩
  · decide

/-! ### Claim C9 -/

/-- C9 counterexample: the Refiner called with `xL = -Infinity`,
`xU = 0` satisfies `xL <= xU` under the JavaScript comparison, yet the
objective is immediately evaluated at the initial probe
`x2 = xL + PHI_RATIO*(xU - xL) = NaN`, which does not lie within
`[xL, xU]` (no `NaN` comparison holds). -/
theorem C9_counterexample :
    jle JSNum.negInf (JSNum.num 0) = true ∧
    (gssInit (fun _ => JSNum.num 0) JSNum.negInf (JSNum.num 0)).x2
        = JSNum.nan ∧
    (jle JSNum.negInf JSNum.nan && jle JSNum.nan (JSNum.num 0)) = false := by
  exact ⟨rfl, by decide, rfl⟩

/-- C9 (amended): for a call with *finite* bounds `xL ≤ xU`, every abscissa
the loop ever holds — hence every argument the objective is evaluated at:
the two bounds, the two initial probes, and each fresh probe produced by a
body execution — lies within the original interval `[xL, xU]`, and the
returned value, whenever it is not `NaN`, also lies within `[xL, xU]`. -/
theorem C9_refiner_stays_in_interval (f : JSNum → JSNum) (l0 u0 : ℚ)
    (h : l0 ≤ u0) :
    StInRange l0 u0 (gssInit f (JSNum.num l0) (JSNum.num u0)) ∧
    (∀ s : GssSt, StInRange l0 u0 s → StInRange l0 u0 (gssStep f s)) ∧
    (∀ (tol : JSNum) (maxIter : ℕ),
      (goldenSectionMinimize f (JSNum.num l0) (JSNum.num u0) tol maxIter).1
          ≠ JSNum.nan →
      ∃ q : ℚ, (goldenSectionMinimize f (JSNum.num l0) (JSNum.num u0) tol
          maxIter).1 = JSNum.num q ∧ l0 ≤ q ∧ q ≤ u0) := by
  refine ⟨gssInit_range f l0 u0 l0 u0 le_rfl h h le_rfl,
    fun s hs => gssStep_range f l0 u0 s hs, ?_⟩
  intro tol maxIter hne
  have hinit : StInRange l0 u0 (gssInit f (JSNum.num l0) (JSNum.num u0)) :=
    gssInit_range f l0 u0 l0 u0 le_rfl h h le_rfl
  have hrange := gssLoop_range f tol maxIter l0 u0 maxIter 0 _ hinit
  obtain ⟨a, b, c, d, hxL, hxU, hx1, hx2, ha, ha', hb, hb', _⟩ := hrange
  have heq := gss_spec f (JSNum.num l0) (JSNum.num u0) tol maxIter
    (gssLoop f tol maxIter maxIter 0
      (gssInit f (JSNum.num l0) (JSNum.num u0))).1
    (gssLoop f tol maxIter maxIter 0
      (gssInit f (JSNum.num l0) (JSNum.num u0))).2 rfl
  set r := gssLoop f tol maxIter maxIter 0
    (gssInit f (JSNum.num l0) (JSNum.num u0)) with hr
  by_cases hc : (jIsNaN r.2.f2 || jIsNaN r.2.f1 || decide (r.1 = maxIter))
      = true
  · rw [if_pos hc] at heq
    rw [heq] at hne
    exact absurd rfl hne
  · rw [if_neg hc] at heq
    rw [heq] at hne ⊢
    by_cases h1 : jlt (f (JSNum.num l0))
        (jmul (JSNum.num (1/2)) (jadd r.2.f1 r.2.f2)) = true
    · rw [if_pos h1]
      exact ⟨l0, rfl, le_rfl, h⟩
    · rw [if_neg h1]
      by_cases h2 : jlt (f (JSNum.num u0))
          (jmul (JSNum.num (1/2)) (jadd r.2.f1 r.2.f2)) = true
      · rw [if_pos h2]
        exact ⟨u0, rfl, h, le_rfl⟩
      · rw [if_neg h2]
        have hxF : jmul (JSNum.num (1/2)) (jadd r.2.xU r.2.xL)
            = JSNum.num ((1/2) * (b + a)) := by
          rw [hxU, hxL]; simp
        rw [hxF]
        exact ⟨(1/2) * (b + a), rfl, by linarith, by linarith⟩

/-- C9 witness: the amended theorem applied at `f` constant `0` on the
interval `[0, 1]`: the initial probe state is in range. -/
theorem C9_witness :
    StInRange 0 1 (gssInit (fun _ => JSNum.num 0) (JSNum.num 0) (JSNum.num 1)) :=
  (C9_refiner_stays_in_interval (fun _ => JSNum.num 0) 0 1 (by norm_num)).1

/-! ### Claim C10 -/

/-- C10: with `maxIterations = 0` the incremented counter (final value `1`)
never equals the cap, so no refinement iteration runs (the loop state is
the initial probe state) and — provided the two initial probe values are
not `NaN` — the call is *not* treated as iteration exhaustion: it returns
one of the two original bounds or the midpoint, with `converged = true`.
With `maxIterations = 1` the call returns the `NaN` sentinel with
`converged = false` for every objective. -/
theorem C10_zero_vs_one_cap :
    (∀ (f : JSNum → JSNum) (xL xU tol : JSNum),
      jIsNaN (gssInit f xL xU).f1 = false →
      jIsNaN (gssInit f xL xU).f2 = false →
      gssLoop f tol 0 0 0 (gssInit f xL xU) = (1, gssInit f xL xU) ∧
      (goldenSectionMinimize f xL xU tol 0).2.converged = true ∧
      ((goldenSectionMinimize f xL xU tol 0).1 = xL ∨
       (goldenSectionMinimize f xL xU tol 0).1 = xU ∨
       (goldenSectionMinimize f xL xU tol 0).1
          = jmul (JSNum.num (1/2)) (jadd (gssInit f xL xU).xU (gssInit f xL xU).xL))) ∧
    (∀ (f : JSNum → JSNum) (xL xU tol : JSNum),
      (goldenSectionMinimize f xL xU tol 1).1 = JSNum.nan ∧
      (goldenSectionMinimize f xL xU tol 1).2.converged = false) := by
  constructor
  · intro f xL xU tol hf1 hf2
    have hloop : gssLoop f tol 0 0 0 (gssInit f xL xU)
        = (1, gssInit f xL xU) := rfl
    have heq := gss_spec f xL xU tol 0 1 (gssInit f xL xU) hloop
    have hc : (jIsNaN (gssInit f xL xU).f2 || jIsNaN (gssInit f xL xU).f1
        || decide ((1 : ℕ) = 0)) = false := by
      simp [hf1, hf2]
    rw [Bool.eq_false_iff] at hc
    rw [if_neg (by simpa using hc)] at heq
    refine ⟨hloop, ?_, ?_⟩
    · rw [heq]
      by_cases h1 : jlt (f xL) (jmul (JSNum.num (1/2))
          (jadd (gssInit f xL xU).f1 (gssInit f xL xU).f2)) = true
      · rw [if_pos h1]
      · rw [if_neg h1]
        by_cases h2 : jlt (f xU) (jmul (JSNum.num (1/2))
            (jadd (gssInit f xL xU).f1 (gssInit f xL xU).f2)) = true
        · rw [if_pos h2]
        · rw [if_neg h2]
    · rw [heq]
      by_cases h1 : jlt (f xL) (jmul (JSNum.num (1/2))
          (jadd (gssInit f xL xU).f1 (gssInit f xL xU).f2)) = true
      · rw [if_pos h1]; exact Or.inl rfl
      · rw [if_neg h1]
        by_cases h2 : jlt (f xU) (jmul (JSNum.num (1/2))
            (jadd (gssInit f xL xU).f1 (gssInit f xL xU).f2)) = true
        · rw [if_pos h2]; exact Or.inr (Or.inl rfl)
        · rw [if_neg h2]; exact Or.inr (Or.inr rfl)
  · intro f xL xU tol
    have hloop : gssLoop f tol 1 1 0 (gssInit f xL xU)
        = (1, gssInit f xL xU) := by
      rw [gssLoop]
      simp
    have heq := gss_spec f xL xU tol 1 1 (gssInit f xL xU) hloop
    rw [if_pos (by simp)] at heq
    rw [heq]
    exact ⟨rfl, rfl⟩

/-- C10 witness: the first part applied at `f(x) = x*x` on `[1, 5]` with
the default tolerance: both probe values are numbers, so the call with
`maxIterations = 0` reports `converged = true`. -/
theorem C10_witness :
    (goldenSectionMinimize (fun x => jmul x x) (JSNum.num 1) (JSNum.num 5)
      (JSNum.num (1 / 10 ^ 8)) 0).2.converged = true :=
  ((C10_zero_vs_one_cap.1 (fun x => jmul x x) (JSNum.num 1) (JSNum.num 5)
    (JSNum.num (1 / 10 ^ 8)) (by decide) (by decide)).2).1

/-! ### Claim C7 -/

/-- C7 counterexample: with `lowerBound = +Infinity` (and no upper bound)
the claim says the starting point should be `0` (`+Infinity` is not
finite), which would make the search return `0` for `f(x) = x`; the code
tests only `xMin > -Infinity`, so it starts bracketing at `+Infinity` and
the search returns the `NaN` sentinel instead. -/
theorem C7_counterexample :
    (Option.map Prod.fst
      (_minimizeSearch (fun x => x) { lowerBound := some JSNum.posInf } 50)
      = some JSNum.nan) ∧
    bracketMinimum (fun x => x) (JSNum.num 0) (JSNum.num 1) 50
      = some (JSNum.num 0, JSNum.num 1) ∧
    (goldenSectionMinimize (fun x => x) (JSNum.num 0) (JSNum.num 1)
      (JSNum.num (1 / 10 ^ 8)) 100).1 = JSNum.num 0 := by
  refine ⟨by decide, by decide, by decide⟩

/-- C7 (amended): if both resolved bounds are finite the Bracketer is never
run and the Refiner is called directly on `(lowerBound, upperBound)`;
otherwise the starting point is `lowerBound` whenever `lowerBound > -∞`
under the JavaScript comparison (this includes `lowerBound = +∞` and is
the only point where the claim's "finite and greater than `-∞`" differs),
else `0`, and the Bracketer's interval is handed to the Refiner. -/
theorem C7_orchestrator_modes :
    (∀ (f : JSNum → JSNum) (options : MinimizeOptions) (fuel : ℕ),
      jIsFinite (options.upperBound.getD JSNum.posInf) = true →
      jIsFinite (options.lowerBound.getD JSNum.negInf) = true →
      _minimizeSearch f options fuel = some (goldenSectionMinimize f
        (options.lowerBound.getD JSNum.negInf)
        (options.upperBound.getD JSNum.posInf)
        (options.tolerance.getD (JSNum.num (1 / 10 ^ 8)))
        (options.maxIterations.getD 100))) ∧
    (∀ (f : JSNum → JSNum) (options : MinimizeOptions) (fuel : ℕ),
      (jIsFinite (options.upperBound.getD JSNum.posInf)
        && jIsFinite (options.lowerBound.getD JSNum.negInf)) = false →
      _minimizeSearch f options fuel =
        (bracketMinimum f
          (if jgt (options.lowerBound.getD JSNum.negInf) JSNum.negInf = true
             then options.lowerBound.getD JSNum.negInf else JSNum.num 0)
          (options.initialIncrement.getD (JSNum.num 1)) fuel).map
          (fun bounds => goldenSectionMinimize f bounds.1 bounds.2
            (options.tolerance.getD (JSNum.num (1 / 10 ^ 8)))
            (options.maxIterations.getD 100))) := by
  constructor
  · intro f options fuel h1 h2
    simp [_minimizeSearch, h1, h2]
  · intro f options fuel h
    simp only [_minimizeSearch, h]
    cases hb : bracketMinimum f
        (if jgt (options.lowerBound.getD JSNum.negInf) JSNum.negInf = true
           then options.lowerBound.getD JSNum.negInf else JSNum.num 0)
        (options.initialIncrement.getD (JSNum.num 1)) fuel with
    | none => simp [hb]
    | some bounds => simp [hb]

/-- C7 witness: the first part applied at concrete finite bounds `[1, 5]`:
the Refiner is called directly (even with zero bracketing fuel). -/
theorem C7_witness :
    _minimizeSearch (fun x => jmul x x)
      { lowerBound := some (JSNum.num 1), upperBound := some (JSNum.num 5) } 0
      = some (goldenSectionMinimize (fun x => jmul x x) (JSNum.num 1)
          (JSNum.num 5) (JSNum.num (1 / 10 ^ 8)) 100) :=
  C7_orchestrator_modes.1 (fun x => jmul x x)
    { lowerBound := some (JSNum.num 1), upperBound := some (JSNum.num 5) } 0
    rfl rfl

/-! ### Claim C5 -/

/-- Loop invariant for a strictly decreasing objective: `xU` is pinned at
`u0`, `xL` keeps increasing, and the right probe is the fresh combination
`xL + PHI_RATIO*(u0 - xL)`. -/
def decINV (l0 u0 l a b : ℚ) : Prop :=
  l0 ≤ l ∧ l < a ∧ a < b ∧ b = l + phiQ * (u0 - l)

theorem decINV_bounds (l0 u0 l a b : ℚ) (h : decINV l0 u0 l a b) :
    l < u0 ∧ a < u0 ∧ b < u0 := by
  obtain ⟨h1, h2, h3, h4⟩ := h
  have hphi0 := phiQ_pos
  have hphi1 := phiQ_lt_one
  have hlu : l < u0 := by nlinarith
  have hb : b < u0 := by nlinarith
  exact ⟨hlu, lt_trans h3 hb, hb⟩

/-- On a strictly decreasing objective the golden-section loop always takes
the `else` branch (`f2 > f1` is false), so `xU` never moves and the
invariant is preserved until the loop exits. -/
theorem gssLoop_dec (g : ℚ → ℚ) (f : JSNum → JSNum)
    (hf : ∀ q, f (JSNum.num q) = JSNum.num (g q)) (l0 u0 : ℚ)
    (hg : ∀ x y : ℚ, l0 ≤ x → x < y → y ≤ u0 → g y < g x)
    (tol : JSNum) (maxIter : ℕ) :
    ∀ (fuel it : ℕ) (l a b : ℚ), decINV l0 u0 l a b →
    ∃ l' a' b', decINV l0 u0 l' a' b' ∧
      (gssLoop f tol maxIter fuel it
        ⟨JSNum.num l, JSNum.num u0, JSNum.num a, JSNum.num b,
         JSNum.num (g a), JSNum.num (g b)⟩).2
      = ⟨JSNum.num l', JSNum.num u0, JSNum.num a', JSNum.num b',
         JSNum.num (g a'), JSNum.num (g b')⟩ := by
  intro fuel
  induction fuel with
  | zero => intro it l a b h; exact ⟨l, a, b, h, rfl⟩
  | succ n ih =>
      intro it l a b h
      obtain ⟨hl0, hla, hab, hb⟩ := h
      obtain ⟨hlu, hau, hbu⟩ := decINV_bounds l0 u0 l a b ⟨hl0, hla, hab, hb⟩
      have hgba : g b < g a :=
        hg a b (le_trans hl0 (le_of_lt hla)) hab (le_of_lt hbu)
      have hbranch : jgt (JSNum.num (g b)) (JSNum.num (g a)) = false := by
        rw [jgt_num]
        simp only [decide_eq_false_iff_not]
        linarith
      have hstep : gssStep f
          ⟨JSNum.num l, JSNum.num u0, JSNum.num a, JSNum.num b,
           JSNum.num (g a), JSNum.num (g b)⟩
          = ⟨JSNum.num a, JSNum.num u0, JSNum.num b,
             JSNum.num (a + phiQ * (u0 - a)),
             JSNum.num (g b), JSNum.num (g (a + phiQ * (u0 - a)))⟩ := by
        simp only [gssStep, hbranch, Bool.false_eq_true, if_false,
          PHI_RATIO_eq, jsub_num, jmul_num, jadd_num, hf]
      have hphi0 := phiQ_pos
      have hphi1 := phiQ_lt_one
      have hinv' : decINV l0 u0 a b (a + phiQ * (u0 - a)) := by
        refine ⟨le_trans hl0 (le_of_lt hla), hab, ?_, rfl⟩
        have : (a + phiQ * (u0 - a)) - b = (1 - phiQ) * (a - l) := by
          rw [hb]; ring
        nlinarith
      rw [gssLoop]
      by_cases hgd : (decide (it + 1 < maxIter)
          && jgt (jabs (jsub (JSNum.num u0) (JSNum.num l))) tol) = true
      · rw [if_pos hgd, hstep]
        exact ih (it + 1) a b (a + phiQ * (u0 - a)) hinv'
      · rw [if_neg hgd]
        exact ⟨l, a, b, ⟨hl0, hla, hab, hb⟩, rfl⟩

/-- C5: on a non-`NaN`, within-budget exit, the Refiner's return value is
chosen by boundary correction — `xL0` if `f10 = f(xL)` is strictly below
the midpoint estimate `fF = (f1+f2)/2`, else `xU0` if `f20 = f(xU)` is
strictly below `fF`, else the midpoint `xF = (xU+xL)/2`.  Consequently,
for a strictly decreasing (rational-valued) objective on finite bounds
`l0 < u0`, the search returns exactly the right boundary `u0`. -/
theorem C5_boundary_correction :
    (∀ (f : JSNum → JSNum) (xL xU tol : JSNum) (maxIter : ℕ),
      jIsNaN (gssLoop f tol maxIter maxIter 0 (gssInit f xL xU)).2.f1 = false →
      jIsNaN (gssLoop f tol maxIter maxIter 0 (gssInit f xL xU)).2.f2 = false →
      (gssLoop f tol maxIter maxIter 0 (gssInit f xL xU)).1 ≠ maxIter →
      (goldenSectionMinimize f xL xU tol maxIter).1 =
        (if jlt (f xL) (jmul (JSNum.num (1/2))
            (jadd (gssLoop f tol maxIter maxIter 0 (gssInit f xL xU)).2.f1
                  (gssLoop f tol maxIter maxIter 0 (gssInit f xL xU)).2.f2))
            = true then xL
         else if jlt (f xU) (jmul (JSNum.num (1/2))
            (jadd (gssLoop f tol maxIter maxIter 0 (gssInit f xL xU)).2.f1
                  (gssLoop f tol maxIter maxIter 0 (gssInit f xL xU)).2.f2))
            = true then xU
         else jmul (JSNum.num (1/2))
            (jadd (gssLoop f tol maxIter maxIter 0 (gssInit f xL xU)).2.xU
                  (gssLoop f tol maxIter maxIter 0 (gssInit f xL xU)).2.xL))) ∧
    (∀ (g : ℚ → ℚ) (f : JSNum → JSNum) (l0 u0 : ℚ) (tol : JSNum)
        (maxIter : ℕ),
      (∀ q, f (JSNum.num q) = JSNum.num (g q)) →
      (∀ x y : ℚ, l0 ≤ x → x < y → y ≤ u0 → g y < g x) →
      l0 < u0 →
      (gssLoop f tol maxIter maxIter 0
        (gssInit f (JSNum.num l0) (JSNum.num u0))).1 ≠ maxIter →
      (goldenSectionMinimize f (JSNum.num l0) (JSNum.num u0) tol maxIter).1
        = JSNum.num u0) := by
  constructor
  · intro f xL xU tol maxIter hf1 hf2 hit
    have heq := gss_spec f xL xU tol maxIter
      (gssLoop f tol maxIter maxIter 0 (gssInit f xL xU)).1
      (gssLoop f tol maxIter maxIter 0 (gssInit f xL xU)).2 rfl
    set r := gssLoop f tol maxIter maxIter 0 (gssInit f xL xU) with hr
    have hc : (jIsNaN r.2.f2 || jIsNaN r.2.f1 || decide (r.1 = maxIter))
        = false := by
      simp [hf1, hf2, hit]
    rw [Bool.eq_false_iff] at hc
    rw [if_neg (by simpa using hc)] at heq
    rw [heq]
    by_cases h1 : jlt (f xL) (jmul (JSNum.num (1/2)) (jadd r.2.f1 r.2.f2))
        = true
    · rw [if_pos h1, if_pos h1]
    · rw [if_neg h1, if_neg h1]
      by_cases h2 : jlt (f xU) (jmul (JSNum.num (1/2)) (jadd r.2.f1 r.2.f2))
          = true
      · rw [if_pos h2, if_pos h2]
      · rw [if_neg h2, if_neg h2]
  · intro g f l0 u0 tol maxIter hf hg hlt hit
    have hphi0 := phiQ_pos
    have hphi1 := phiQ_lt_one
    have hphi2 := one_lt_two_phiQ
    have hinit : gssInit f (JSNum.num l0) (JSNum.num u0)
        = ⟨JSNum.num l0, JSNum.num u0,
           JSNum.num (u0 - phiQ * (u0 - l0)),
           JSNum.num (l0 + phiQ * (u0 - l0)),
           JSNum.num (g (u0 - phiQ * (u0 - l0))),
           JSNum.num (g (l0 + phiQ * (u0 - l0)))⟩ := by
      simp only [gssInit, PHI_RATIO_eq, jsub_num, jmul_num, jadd_num, hf]
    have hinv0 : decINV l0 u0 l0 (u0 - phiQ * (u0 - l0))
        (l0 + phiQ * (u0 - l0)) := by
      refine ⟨le_rfl, by nlinarith, by nlinarith, rfl⟩
    obtain ⟨l', a', b', hinv', hstate⟩ := gssLoop_dec g f hf l0 u0 hg tol
      maxIter maxIter 0 l0 (u0 - phiQ * (u0 - l0)) (l0 + phiQ * (u0 - l0))
      hinv0
    rw [← hinit] at hstate
    have hloop : gssLoop f tol maxIter maxIter 0
        (gssInit f (JSNum.num l0) (JSNum.num u0))
        = ((gssLoop f tol maxIter maxIter 0
            (gssInit f (JSNum.num l0) (JSNum.num u0))).1,
           (⟨JSNum.num l', JSNum.num u0, JSNum.num a', JSNum.num b',
             JSNum.num (g a'), JSNum.num (g b')⟩ : GssSt)) := by
      rw [← hstate]
    have heq := gss_spec f (JSNum.num l0) (JSNum.num u0) tol maxIter
      (gssLoop f tol maxIter maxIter 0
        (gssInit f (JSNum.num l0) (JSNum.num u0))).1
      ⟨JSNum.num l', JSNum.num u0, JSNum.num a', JSNum.num b',
       JSNum.num (g a'), JSNum.num (g b')⟩ hloop
    dsimp only at heq
    obtain ⟨hl0', hla', hab', hb'⟩ := hinv'
    obtain ⟨hlu', hau', hbu'⟩ := decINV_bounds l0 u0 l' a' b' ⟨hl0', hla', hab', hb'⟩
    have hga' : g a' < g l0 :=
      hg l0 a' le_rfl (lt_of_le_of_lt hl0' hla') (le_of_lt hau')
    have hgb' : g b' < g l0 :=
      hg l0 b' le_rfl (lt_of_le_of_lt hl0' (lt_trans hla' hab'))
        (le_of_lt hbu')
    have hgua : g u0 < g a' :=
      hg a' u0 (le_trans hl0' (le_of_lt hla')) hau' le_rfl
    have hgub : g u0 < g b' :=
      hg b' u0 (le_trans hl0' (le_of_lt (lt_trans hla' hab'))) hbu' le_rfl
    have hc : (jIsNaN (JSNum.num (g b')) || jIsNaN (JSNum.num (g a'))
        || decide ((gssLoop f tol maxIter maxIter 0
            (gssInit f (JSNum.num l0) (JSNum.num u0))).1 = maxIter))
        = false := by
      simp [hit]
    rw [Bool.eq_false_iff] at hc
    rw [if_neg (by simpa using hc)] at heq
    have hF : jmul (JSNum.num (1/2))
        (jadd (JSNum.num (g a')) (JSNum.num (g b')))
        = JSNum.num ((1/2) * (g a' + g b')) := by simp
    have h1 : jlt (f (JSNum.num l0))
        (jmul (JSNum.num (1/2)) (jadd (JSNum.num (g a')) (JSNum.num (g b'))))
        = false := by
      rw [hf, hF, jlt_num]
      simp only [decide_eq_false_iff_not]
      intro hcon; linarith
    have h2 : jlt (f (JSNum.num u0))
        (jmul (JSNum.num (1/2)) (jadd (JSNum.num (g a')) (JSNum.num (g b'))))
        = true := by
      rw [hf, hF, jlt_num]
      simp only [decide_eq_true_eq]
      linarith
    rw [if_neg (by rw [h1]; exact Bool.false_ne_true), if_pos h2] at heq
    rw [heq]

/-- C5 witness: the decreasing part applied to `f(x) = -x` on `[1, 5]`
with the default tolerance and cap: the search returns the right
boundary `5` exactly. -/
theorem C5_witness :
    (goldenSectionMinimize (fun x => jneg x) (JSNum.num 1) (JSNum.num 5)
      (JSNum.num (1 / 10 ^ 8)) 100).1 = JSNum.num 5 :=
  C5_boundary_correction.2 (fun q => -q) (fun x => jneg x) 1 5
    (JSNum.num (1 / 10 ^ 8)) 100 (fun q => rfl)
    (fun x y _ hxy _ => by simpa using hxy) (by norm_num) (by decide)

/-! ### Claim C1 -/

/-- Strict convexity of a rational function on `[l, u]`, stated with the
standard chord inequality. -/
def StrictConvexOnQ (l u : ℚ) (g : ℚ → ℚ) : Prop :=
  ∀ x y t : ℚ, l ≤ x → x < y → y ≤ u → 0 < t → t < 1 →
    g (t * x + (1 - t) * y) < t * g x + (1 - t) * g y

/-- Centre of the counterexample objective. -/
def cC : ℚ := 1 / 2

/-- Left slope of the counterexample objective (tiny). -/
def epsC : ℚ := 1 / 10 ^ 20

/-- Left curvature of the counterexample objective (tiny but positive, so
the function is strictly convex). -/
def muC : ℚ := 1 / 10 ^ 20

/-- The unique minimizer of the counterexample objective. -/
def xstarC : ℚ := cC + epsC / 2

/-- A strictly convex objective with almost flat left flank and unit
curvature right of `cC`:
`f(q) = epsC*(cC - q) + muC*(q - cC)^2 + (1 - muC)*(max (q - cC) 0)^2`. -/
def fcexQ (q : ℚ) : ℚ :=
  epsC * (cC - q) + muC * (q - cC) ^ 2 + (1 - muC) * (max (q - cC) 0) ^ 2

/-- The counterexample objective lifted to the number model. -/
def fcex : JSNum → JSNum := fun x =>
  match x with
  | JSNum.num q => JSNum.num (fcexQ q)
  | _ => JSNum.nan

theorem strict_sq_combo (a b t : ℚ) (ht : 0 < t) (ht1 : t < 1)
    (hab : a < b) : (t * a + (1 - t) * b) ^ 2 < t * a ^ 2 + (1 - t) * b ^ 2 := by
  nlinarith [mul_pos (mul_pos ht (by linarith : (0:ℚ) < 1 - t))
    (mul_pos (by linarith : (0:ℚ) < b - a) (by linarith : (0:ℚ) < b - a))]

theorem convex_sq_combo (a b t : ℚ) (ht : 0 ≤ t) (ht1 : t ≤ 1) :
    (t * a + (1 - t) * b) ^ 2 ≤ t * a ^ 2 + (1 - t) * b ^ 2 := by
  nlinarith [mul_nonneg (mul_nonneg ht (by linarith : (0:ℚ) ≤ 1 - t))
    (sq_nonneg (a - b))]

theorem maxpart_convex (c x y t : ℚ) (ht : 0 ≤ t) (ht1 : t ≤ 1) :
    (max (t * x + (1 - t) * y - c) 0) ^ 2
      ≤ t * (max (x - c) 0) ^ 2 + (1 - t) * (max (y - c) 0) ^ 2 := by
  have ha0 : (0:ℚ) ≤ max (x - c) 0 := le_max_right _ _
  have hb0 : (0:ℚ) ≤ max (y - c) 0 := le_max_right _ _
  have hax : x - c ≤ max (x - c) 0 := le_max_left _ _
  have hby : y - c ≤ max (y - c) 0 := le_max_left _ _
  have hm : max (t * x + (1 - t) * y - c) 0
      ≤ t * max (x - c) 0 + (1 - t) * max (y - c) 0 := by
    apply max_le
    · have harg : t * x + (1 - t) * y - c = t * (x - c) + (1 - t) * (y - c) := by
        ring
      rw [harg]
      have h1 : t * (x - c) ≤ t * max (x - c) 0 :=
        mul_le_mul_of_nonneg_left hax ht
      have h2 : (1 - t) * (y - c) ≤ (1 - t) * max (y - c) 0 :=
        mul_le_mul_of_nonneg_left hby (by linarith)
      linarith
    · have := mul_nonneg ht ha0
      have := mul_nonneg (by linarith : (0:ℚ) ≤ 1 - t) hb0
      linarith
  have hm0 : (0:ℚ) ≤ max (t * x + (1 - t) * y - c) 0 := le_max_right _ _
  calc (max (t * x + (1 - t) * y - c) 0) ^ 2
      ≤ (t * max (x - c) 0 + (1 - t) * max (y - c) 0) ^ 2 := by
        nlinarith [hm, hm0]
    _ ≤ t * (max (x - c) 0) ^ 2 + (1 - t) * (max (y - c) 0) ^ 2 :=
        convex_sq_combo _ _ t ht ht1

theorem fcexQ_strictConvex : StrictConvexOnQ 0 1 fcexQ := by
  intro x y t hx hxy hy ht ht1
  have hq := strict_sq_combo (x - cC) (y - cC) t ht ht1 (by linarith)
  have hmx := maxpart_convex cC x y t (le_of_lt ht) (le_of_lt ht1)
  have hmu : (0:ℚ) < muC := by norm_num [muC]
  have hmu1 : (0:ℚ) ≤ 1 - muC := by norm_num [muC]
  simp only [fcexQ]
  nlinarith [mul_lt_mul_of_pos_left hq hmu,
    mul_le_mul_of_nonneg_left hmx hmu1]

theorem fcexQ_argmin : ∀ q : ℚ, fcexQ xstarC ≤ fcexQ q := by
  have he : (0:ℚ) < epsC := by norm_num [epsC]
  have hstar : fcexQ xstarC = -(epsC ^ 2 / 4) := by
    rw [fcexQ]
    have hmx : max (xstarC - cC) 0 = xstarC - cC :=
      max_eq_left (by norm_num [xstarC, cC, epsC])
    rw [hmx]
    norm_num [xstarC, cC, epsC, muC]
  intro q
  rw [hstar]
  by_cases hq : q ≤ cC
  · have hmx : max (q - cC) 0 = 0 := max_eq_right (by linarith)
    rw [fcexQ, hmx]
    have hmu : (0:ℚ) < muC := by norm_num [muC]
    nlinarith [sq_nonneg (q - cC), mul_nonneg (le_of_lt he) (by linarith : (0:ℚ) ≤ cC - q)]
  · have hmx : max (q - cC) 0 = q - cC := max_eq_left (by linarith)
    rw [fcexQ, hmx]
    have hsum : muC * (q - cC) ^ 2 + (1 - muC) * (q - cC) ^ 2 = (q - cC) ^ 2 := by
      ring
    nlinarith [sq_nonneg (q - cC - epsC / 2)]

/-- C1 counterexample: `fcexQ` is strictly convex on `[0, 1]` with interior
minimizer `xstarC = 1/2 + 5*10^-21`, yet `minimize` with
`lowerBound = 0, upperBound = 1` (default tolerance `1e-8`) returns the
original left bound `0`, which is at distance `> 1/2` from the minimizer —
far beyond the tolerance.  (The final boundary-correction step fires
because `f(0)` is smaller than the midpoint value estimate `0.5*(f1+f2)`.)
The claim's universal statement is therefore false. -/
theorem C1_counterexample :
    StrictConvexOnQ 0 1 fcexQ ∧
    (0 < xstarC ∧ xstarC < 1) ∧
    (∀ q : ℚ, fcexQ xstarC ≤ fcexQ q) ∧
    (Option.map Prod.fst (_minimizeSearch fcex
      { lowerBound := some (JSNum.num 0), upperBound := some (JSNum.num 1) } 0)
      = some (JSNum.num 0)) ∧
    ¬ |(0 : ℚ) - xstarC| ≤ 1 / 10 ^ 8 := by
  refine ⟨fcexQ_strictConvex, ⟨by norm_num [xstarC, cC, epsC],
    by norm_num [xstarC, cC, epsC]⟩, fcexQ_argmin, by decide, ?_⟩
  norm_num [xstarC, cC, epsC]
  rw [abs_of_pos (by norm_num)]
  norm_num

/-- The concrete objective of the claim's scenario, `f(x) = (x - 3)^2`,
written as `(x - 3) * (x - 3)` over the number model. -/
def fsq3 : JSNum → JSNum := fun x =>
  jmul (jsub x (JSNum.num 3)) (jsub x (JSNum.num 3))

/-- C1 (amended): for a strictly convex objective the search can return an
original bound farther than the tolerance from the interior minimizer when
a bound evaluation is strictly below the final midpoint value estimate (the
boundary-correction step; see the counterexample).  The claim's concrete
scenario does hold: for `f(x) = (x-3)^2` with no bounds and
`initialIncrement = 1`, `minimize` converges, returns a value within
`1e-6` of `3` and reports a minimum within `1e-12` of `f(3) = 0`. -/
theorem C1_concrete_scenario :
    (_minimizeSearch fsq3 { initialIncrement := some (JSNum.num 1) } 100).map
      (fun p => (jlt (jabs (jsub p.1 (JSNum.num 3))) (JSNum.num (1 / 10 ^ 6)),
                 jlt (jabs p.2.minimum) (JSNum.num (1 / 10 ^ 12)),
                 p.2.converged))
      = some (true, true, true) := by
  decide
